import Mathlib

/-!
Verification development for the onboarding-chatbot repository.

The repository has two TypeScript entry points:
  * `src/onboardInstructor.ts` — a tool-calling conversation loop: a graph with
    an `agent` node (model call) and a `tools` node (the single bound tool
    `complete`, whose schema is `onboardInstructorEssentialsSchema`), driven by
    a readline loop in `main`.
  * `src/onboarding-chatbot.ts` — a string-matching conversation loop: a graph
    with a single `agent` node, a conditional edge `shouldContinue`, and ad-hoc
    substring parsing (`parseResponseForData`) of the model reply.

This file embeds the data model and the two loops shallowly: JSON values are an
inductive type, the remote completion service is an oracle
`List Message → Except String ModelResponse` (it may fail, modelling transport
errors), and each loop is a recursive function over the list of user input
lines that returns the trace of observable events (model invocations, tool
executions, console prints, the top-level error log) together with the final
state.
-/

/-- JSON values, as exchanged with the completion service and the tool. -/
inductive Json where
  | null : Json
  | bool (b : Bool) : Json
  | num (n : Rat) : Json
  | str (s : String) : Json
  | arr (items : List Json) : Json
  | obj (fields : List (String × Json)) : Json

/-- Property lookup on a JSON object's field list (JS objects have no
duplicate keys; lookup returns the first binding). -/
def lookupJson (k : String) : List (String × Json) → Option Json
  | [] => none
  | (k', v) :: rest => if k' = k then some v else lookupJson k rest

/-! ## The `complete` tool's schema (`onboardInstructorEssentialsSchema`,
`src/onboardInstructor.ts` lines 26–81), compiled to a JSON-Schema checker.

The `format: email` keyword on `yourEmailAddress` is enforced by the JSON-Schema
library outside this repository, so the checker is parameterised by the
email-format predicate `emailOk`. -/

def isStr : Json → Bool
  | Json.str _ => true
  | _ => false

def isNum : Json → Bool
  | Json.num _ => true
  | _ => false

def isBool : Json → Bool
  | Json.bool _ => true
  | _ => false

/-- A property's sub-schema applies only when the property is present. -/
def propOk (p : Json → Bool) : Option Json → Bool
  | none => true
  | some v => p v

/-- The `required` keyword: every listed key is present. -/
def requiredOk (req : List String) (kvs : List (String × Json)) : Bool :=
  req.all fun k => (lookupJson k kvs).isSome

/-- The `additionalProperties: false` keyword: every present key is declared. -/
def noExtra (allowed : List String) (kvs : List (String × Json)) : Bool :=
  kvs.all fun p => allowed.contains p.1

/-- The `enum` of `dayOfWeek` (schema line 64). -/
def dayNames : List String :=
  ["Monday", "Tuesday", "Wednesday", "Thursday", "Friday", "Saturday", "Sunday"]

/-- Declared keys of `firstServices` (schema lines 34–48). -/
def fsKeys : List String :=
  ["serviceName", "price", "priceCurrency", "durationInMinutes"]

/-- Declared keys of a `businessHours` item (schema lines 55–67). -/
def hourKeys : List String :=
  ["startTime24hr", "endTime24hr", "dayOfWeek"]

/-- Declared (and all required) top-level keys (schema lines 28–79). -/
def topKeys : List String :=
  ["businessName", "firstServices", "businessHours", "yourEmailAddress",
   "doYouWantUsToTakePaymentsDirectlyFromYourCustomers"]

/-- The `firstServices` sub-schema (lines 32–50): object, four string/number
properties, all required, no additional properties. -/
def validService : Json → Bool
  | Json.obj kvs =>
      propOk isStr (lookupJson "serviceName" kvs) &&
      propOk isNum (lookupJson "price" kvs) &&
      propOk isStr (lookupJson "priceCurrency" kvs) &&
      propOk isNum (lookupJson "durationInMinutes" kvs) &&
      requiredOk fsKeys kvs &&
      noExtra fsKeys kvs
  | _ => false

/-- The `businessHours` item sub-schema (lines 53–69): object, two string
times, enumerated `dayOfWeek`, all required, no additional properties. -/
def validHours : Json → Bool
  | Json.obj kvs =>
      propOk isStr (lookupJson "startTime24hr" kvs) &&
      propOk isStr (lookupJson "endTime24hr" kvs) &&
      propOk (fun v => match v with
        | Json.str d => dayNames.contains d
        | _ => false) (lookupJson "dayOfWeek" kvs) &&
      requiredOk hourKeys kvs &&
      noExtra hourKeys kvs
  | _ => false

/-- `onboardInstructorEssentialsSchema` as a checker: the payload accepted by
the `complete` structured action.  `emailOk` is the email-format predicate of
the schema library. -/
def validOnboardingRecord (emailOk : String → Bool) : Json → Bool
  | Json.obj kvs =>
      propOk isStr (lookupJson "businessName" kvs) &&
      propOk validService (lookupJson "firstServices" kvs) &&
      propOk (fun v => match v with
        | Json.arr items => items.all validHours
        | _ => false) (lookupJson "businessHours" kvs) &&
      propOk (fun v => match v with
        | Json.str s => emailOk s
        | _ => false) (lookupJson "yourEmailAddress" kvs) &&
      propOk isBool
        (lookupJson "doYouWantUsToTakePaymentsDirectlyFromYourCustomers" kvs) &&
      requiredOk topKeys kvs &&
      noExtra topKeys kvs
  | _ => false

/-! ## Messages, model responses and observable events

Both entry points exchange LangChain messages.  `model.invoke` always returns
an AI message (possibly carrying tool calls); the tool node appends tool
messages.  The remote completion service is modelled as an oracle that, given
the message list actually sent, either returns a response or fails (transport
or service error). -/

/-- A tool call requested by the model (name of the tool and JSON arguments). -/
structure ToolCall where
  name : String
  args : Json

/-- A message in the transcript. -/
inductive Message where
  | system (content : String) : Message
  | human (content : String) : Message
  | ai (content : String) (toolCalls : List ToolCall) : Message
  | toolResult (content : Json) : Message

/-- What `model.invoke` resolves to: an AI message's content plus the tool
calls it requests (empty when the reply is plain conversational text). -/
structure ModelResponse where
  content : String
  toolCalls : List ToolCall

/-- The completion-service boundary: from the message list actually sent to
either a response or a failure. -/
def Oracle : Type := List Message → Except String ModelResponse

/-- Observable events of a run, in order: a line read from stdin, a model
invocation (recording the exact message list sent), a tool execution, a
console print of the bot reply, and the top-level catch logging an error. -/
inductive Event where
  | read (line : String) : Event
  | invoke (sent : List Message) : Event
  | toolRun (toolName : String) : Event
  | printBot (m : Option Message) : Event
  | logError (msg : String) : Event

/-- Is this event a model invocation? -/
def isInvoke : Event → Bool
  | Event.invoke _ => true
  | _ => false

/-- Number of model invocations in a trace. -/
def numInvokes (evts : List Event) : Nat :=
  (evts.filter isInvoke).length

/-- The message lists of the model invocations of a trace, in order. -/
def invokeLists (evts : List Event) : List (List Message) :=
  evts.filterMap fun e =>
    match e with
    | Event.invoke sent => some sent
    | _ => none

/-- Is this a system-role message? -/
def isSystemMsg : Message → Bool
  | Message.system _ => true
  | _ => false

/-- Number of system-role messages in a list. -/
def sysCount (msgs : List Message) : Nat :=
  (msgs.filter isSystemMsg).length

/-- The `messages` state channel's reducer, identical in both entry points
(`reducer: (x, y) => x.concat(y)`): list concatenation. -/
def messagesReducer (x y : List Message) : List Message :=
  x ++ y

/-! ## String helpers for `onboarding-chatbot.ts`

`parseResponseForData` uses the JavaScript operations
`String.prototype.includes`, `String.prototype.split(':')` and
`String.prototype.trim`, modelled here on character lists. -/

/-- JS `hay.includes(needle)`: substring containment. -/
def containsSub (needle : List Char) : List Char → Bool
  | [] => needle.isEmpty
  | c :: rest => needle.isPrefixOf (c :: rest) || containsSub needle rest

/-- JS `s.split(sep)` for a one-character separator: the segments between
occurrences of `sep` (always at least one segment). -/
def splitOnChar (sep : Char) : List Char → List (List Char)
  | [] => [[]]
  | c :: rest =>
      if c = sep then [] :: splitOnChar sep rest
      else
        match splitOnChar sep rest with
        | [] => [[c]]
        | h :: t => (c :: h) :: t

/-- JS `s.trim()`: strip whitespace from both ends. -/
def jsTrim (l : List Char) : List Char :=
  ((l.dropWhile Char.isWhitespace).reverse.dropWhile Char.isWhitespace).reverse

/-- JS `s.toLowerCase()` (per character, as for the ASCII exit sentinel). -/
def jsToLower (s : String) : String :=
  String.mk (s.data.map Char.toLower)

/-! ## Data model of `onboarding-chatbot.ts`

`OnboardTenantEssentials` (lines 41–56) and the state channel
`onboardingData : Partial<OnboardTenantEssentials>`: every field optional. -/

/-- `firstServices` of `OnboardTenantEssentials`. -/
structure ServiceEssentials where
  serviceName : String
  price : Rat
  priceCurrency : String
  durationInMinutes : Rat

/-- One `businessHours` entry of `OnboardTenantEssentials`.  The TypeScript
type constrains `dayOfWeek` to the seven day names; here it is a string, the
constraint living in the schema checker. -/
structure HoursForDay where
  startTime24hr : String
  endTime24hr : String
  dayOfWeek : String

/-- `Partial<OnboardTenantEssentials>`: the `onboardingData` state channel. -/
structure OnboardingData where
  businessName : Option String
  firstServices : Option ServiceEssentials
  businessHours : Option (List HoursForDay)
  yourEmailAddress : Option String
  doYouWantUsToTakePaymentsDirectlyFromYourCustomers : Option Bool

/-- The empty object `{}` as a partial record. -/
def emptyOnboardingData : OnboardingData :=
  ⟨none, none, none, none, none⟩

/-- The `onboardingData` channel's reducer
(`reducer: (prev, next) => ({...prev, ...next})`): fields present in `next`
override, fields absent in `next` keep their previous value. -/
def mergeData (prev next : OnboardingData) : OnboardingData where
  businessName := next.businessName.orElse fun _ => prev.businessName
  firstServices := next.firstServices.orElse fun _ => prev.firstServices
  businessHours := next.businessHours.orElse fun _ => prev.businessHours
  yourEmailAddress := next.yourEmailAddress.orElse fun _ => prev.yourEmailAddress
  doYouWantUsToTakePaymentsDirectlyFromYourCustomers :=
    next.doYouWantUsToTakePaymentsDirectlyFromYourCustomers.orElse fun _ =>
      prev.doYouWantUsToTakePaymentsDirectlyFromYourCustomers

/-- `parseResponseForData` (`onboarding-chatbot.ts` lines 129–145): when the
reply contains both `business name` and a colon, set `businessName` to the
second `split(':')` segment, trimmed; nothing else is ever populated. -/
def parseResponseForData (content : String) : OnboardingData :=
  let cs := content.data
  if containsSub "business name".data cs && containsSub ":".data cs then
    { emptyOnboardingData with
        businessName := some (String.mk (jsTrim ((splitOnChar ':' cs).getD 1 []))) }
  else
    emptyOnboardingData

namespace Chatbot

/-- The graph state of `onboarding-chatbot.ts`: the two channels declared at
lines 30–37. -/
structure State where
  messages : List Message
  onboardingData : OnboardingData

/-- `shouldContinue` (`onboarding-chatbot.ts` lines 68–84).  JS truthiness:
a string is truthy when defined and nonempty, an object or array when defined;
the last two fields are compared against `undefined`. -/
def shouldContinue (state : State) : String :=
  let d := state.onboardingData
  if ((match d.businessName with
        | some s => s != ""
        | none => false) &&
      d.firstServices.isSome &&
      d.businessHours.isSome &&
      d.yourEmailAddress.isSome &&
      d.doYouWantUsToTakePaymentsDirectlyFromYourCustomers.isSome) then
    "__end__"
  else
    "__end__"

/-- `"` around a string value (values occurring in runs contain no characters
JSON.stringify would escape). -/
def jsonQuote (s : String) : String :=
  "\"" ++ s ++ "\""

/-- Compact rendering of a `firstServices` value. -/
def renderService (fs : ServiceEssentials) : String :=
  "\x7b\"serviceName\": " ++ jsonQuote fs.serviceName ++
  ", \"price\": " ++ toString fs.price ++
  ", \"priceCurrency\": " ++ jsonQuote fs.priceCurrency ++
  ", \"durationInMinutes\": " ++ toString fs.durationInMinutes ++ "\x7d"

/-- Compact rendering of one `businessHours` entry. -/
def renderHour (h : HoursForDay) : String :=
  "\x7b\"startTime24hr\": " ++ jsonQuote h.startTime24hr ++
  ", \"endTime24hr\": " ++ jsonQuote h.endTime24hr ++
  ", \"dayOfWeek\": " ++ jsonQuote h.dayOfWeek ++ "\x7d"

/-- `JSON.stringify(onboardingData, null, 2)`: absent fields are omitted; the
empty record renders as the empty object.  (Top-level formatting is exact; in
every reachable state only `businessName` is ever present, so the compact
rendering of nested values is never exercised.) -/
def renderOnboardingData (d : OnboardingData) : String :=
  let fields : List String :=
    (match d.businessName with
      | some s => ["\"businessName\": " ++ jsonQuote s]
      | none => []) ++
    (match d.firstServices with
      | some fs => ["\"firstServices\": " ++ renderService fs]
      | none => []) ++
    (match d.businessHours with
      | some hs =>
          ["\"businessHours\": [" ++ String.intercalate ", " (hs.map renderHour) ++ "]"]
      | none => []) ++
    (match d.yourEmailAddress with
      | some s => ["\"yourEmailAddress\": " ++ jsonQuote s]
      | none => []) ++
    (match d.doYouWantUsToTakePaymentsDirectlyFromYourCustomers with
      | some b => ["\"doYouWantUsToTakePaymentsDirectlyFromYourCustomers\": " ++ toString b]
      | none => [])
  if fields.isEmpty then "\x7b\x7d"
  else "\x7b\n  " ++ String.intercalate ",\n  " fields ++ "\n\x7d"

/-- The system message content built in `callModel`
(`onboarding-chatbot.ts` lines 93–104): a static template with the current
`onboardingData` progress stringified into it. -/
def systemContent (d : OnboardingData) : String :=
  "You are an onboarding assistant for a business management platform. Your task is to collect the following information from the user:\n\n1. Business name\n2. First service details (name, price, currency, duration in minutes)\n3. Business hours for each day of the week\n4. Email address\n5. Whether they want us to take payments directly from customers\n\nCurrent progress:\n" ++
  renderOnboardingData d ++
  "\n\nPlease ask for any missing information one at a time. Be conversational and friendly."

end Chatbot


namespace Instructor

/-- `JSON.stringify(onboardInstructorEssentialsSchema, null, 2)`, interpolated
into the system message template of `onboardInstructor.ts` (line 171). -/
def schemaText : String :=
  "\x7b" ++ "\n" ++
  "  \"type\": \"object\"," ++ "\n" ++
  "  \"properties\": \x7b" ++ "\n" ++
  "    \"businessName\": \x7b" ++ "\n" ++
  "      \"type\": \"string\"" ++ "\n" ++
  "    \x7d," ++ "\n" ++
  "    \"firstServices\": \x7b" ++ "\n" ++
  "      \"type\": \"object\"," ++ "\n" ++
  "      \"properties\": \x7b" ++ "\n" ++
  "        \"serviceName\": \x7b" ++ "\n" ++
  "          \"type\": \"string\"" ++ "\n" ++
  "        \x7d," ++ "\n" ++
  "        \"price\": \x7b" ++ "\n" ++
  "          \"type\": \"number\"" ++ "\n" ++
  "        \x7d," ++ "\n" ++
  "        \"priceCurrency\": \x7b" ++ "\n" ++
  "          \"type\": \"string\"" ++ "\n" ++
  "        \x7d," ++ "\n" ++
  "        \"durationInMinutes\": \x7b" ++ "\n" ++
  "          \"type\": \"number\"" ++ "\n" ++
  "        \x7d" ++ "\n" ++
  "      \x7d," ++ "\n" ++
  "      \"required\": [" ++ "\n" ++
  "        \"serviceName\"," ++ "\n" ++
  "        \"price\"," ++ "\n" ++
  "        \"priceCurrency\"," ++ "\n" ++
  "        \"durationInMinutes\"" ++ "\n" ++
  "      ]," ++ "\n" ++
  "      \"additionalProperties\": false" ++ "\n" ++
  "    \x7d," ++ "\n" ++
  "    \"businessHours\": \x7b" ++ "\n" ++
  "      \"type\": \"array\"," ++ "\n" ++
  "      \"items\": \x7b" ++ "\n" ++
  "        \"type\": \"object\"," ++ "\n" ++
  "        \"properties\": \x7b" ++ "\n" ++
  "          \"startTime24hr\": \x7b" ++ "\n" ++
  "            \"type\": \"string\"" ++ "\n" ++
  "          \x7d," ++ "\n" ++
  "          \"endTime24hr\": \x7b" ++ "\n" ++
  "            \"type\": \"string\"" ++ "\n" ++
  "          \x7d," ++ "\n" ++
  "          \"dayOfWeek\": \x7b" ++ "\n" ++
  "            \"type\": \"string\"," ++ "\n" ++
  "            \"enum\": [" ++ "\n" ++
  "              \"Monday\"," ++ "\n" ++
  "              \"Tuesday\"," ++ "\n" ++
  "              \"Wednesday\"," ++ "\n" ++
  "              \"Thursday\"," ++ "\n" ++
  "              \"Friday\"," ++ "\n" ++
  "              \"Saturday\"," ++ "\n" ++
  "              \"Sunday\"" ++ "\n" ++
  "            ]" ++ "\n" ++
  "          \x7d" ++ "\n" ++
  "        \x7d," ++ "\n" ++
  "        \"required\": [" ++ "\n" ++
  "          \"startTime24hr\"," ++ "\n" ++
  "          \"endTime24hr\"," ++ "\n" ++
  "          \"dayOfWeek\"" ++ "\n" ++
  "        ]," ++ "\n" ++
  "        \"additionalProperties\": false" ++ "\n" ++
  "      \x7d" ++ "\n" ++
  "    \x7d," ++ "\n" ++
  "    \"yourEmailAddress\": \x7b" ++ "\n" ++
  "      \"type\": \"string\"," ++ "\n" ++
  "      \"format\": \"email\"" ++ "\n" ++
  "    \x7d," ++ "\n" ++
  "    \"doYouWantUsToTakePaymentsDirectlyFromYourCustomers\": \x7b" ++ "\n" ++
  "      \"type\": \"boolean\"" ++ "\n" ++
  "    \x7d" ++ "\n" ++
  "  \x7d," ++ "\n" ++
  "  \"required\": [" ++ "\n" ++
  "    \"businessName\"," ++ "\n" ++
  "    \"firstServices\"," ++ "\n" ++
  "    \"businessHours\"," ++ "\n" ++
  "    \"yourEmailAddress\"," ++ "\n" ++
  "    \"doYouWantUsToTakePaymentsDirectlyFromYourCustomers\"" ++ "\n" ++
  "  ]," ++ "\n" ++
  "  \"additionalProperties\": false" ++ "\n" ++
  "\x7d"

/-- The fixed system message content of `callModel`
(`onboardInstructor.ts` lines 167–175). -/
def systemContent : String :=
  "\nYou are an onboarding assistant for a business management platform.\nYour task is to collect the information from the user, based on the following schema:\n\n" ++
  schemaText ++
  "\n\nPlease ask for any missing information one at a time.\nDon\x27t follow user question not related to onboarding.\nBe conversational, short but friendly."

/-- The graph state of `onboardInstructor.ts` (lines 113–117): the single
`messages` channel. -/
structure State where
  messages : List Message

/-- The tool calls of the last message (only AI messages carry `tool_calls`). -/
def lastToolCalls (msgs : List Message) : List ToolCall :=
  match msgs.getLast? with
  | some (Message.ai _ tcs) => tcs
  | _ => []

/-- `shouldContinue` (`onboardInstructor.ts` lines 144–159): route to the
`tools` node when the last message carries tool calls, otherwise to `END`. -/
def shouldContinue (state : State) : String :=
  if (lastToolCalls state.messages).isEmpty = false then "tools" else "__end__"

/-- The `tools` node executing the requested calls.  The only bound tool is
`complete` (`onboardingCompleted`, lines 120–130): its body sets the global
`isCompleted` flag and returns its input, which becomes the tool message
content. -/
def toolNodeStep (calls : List ToolCall) (completed : Bool) :
    List Message × Bool :=
  (calls.map fun tc => Message.toolResult tc.args,
   completed || calls.any fun tc => tc.name == "complete")

/-- Result of one turn of either entry point's loop: the event trace, the
accumulated transcript, the completion flag, and a pending error. -/
structure Run where
  events : List Event
  messages : List Message
  completed : Bool
  err : Option String

/-- One `app.invoke` of the instructor graph: `START → agent`, then the
conditional edge (`tools` on tool calls, else `END`), then `tools → END`.
The model is sent the fixed system message prepended to the full state
(`callModel` lines 162–190). -/
def step (oracle : Oracle) (msgs : List Message) (completed : Bool)
    (newMsg : Message) : Run :=
  let history := messagesReducer msgs [newMsg]
  let sent := Message.system systemContent :: history
  match oracle sent with
  | Except.error e => ⟨[Event.invoke sent], history, completed, some e⟩
  | Except.ok resp =>
      let afterAgent := messagesReducer history [Message.ai resp.content resp.toolCalls]
      if shouldContinue ⟨afterAgent⟩ = "tools" then
        let tn := toolNodeStep resp.toolCalls completed
        ⟨Event.invoke sent :: resp.toolCalls.map (fun tc => Event.toolRun tc.name),
         messagesReducer afterAgent tn.1, tn.2, none⟩
      else
        ⟨[Event.invoke sent], afterAgent, completed, none⟩

/-- The readline loop of `main` (`onboardInstructor.ts` lines 240–279): read a
line; on (case-insensitive) `exit` close and stop; otherwise invoke the app,
print the last message, and stop when the completion flag is set (checked at
the end of the loop body).  An exhausted input list ends the run (stdin
closed). -/
def loop (oracle : Oracle) : List String → List Message → Bool → Run
  | [], msgs, completed => ⟨[], msgs, completed, none⟩
  | line :: rest, msgs, completed =>
      if jsToLower line = "exit" then ⟨[Event.read line], msgs, completed, none⟩
      else
        let s := step oracle msgs completed (Message.human line)
        match s.err with
        | some e => ⟨Event.read line :: s.events, s.messages, s.completed, some e⟩
        | none =>
            if s.completed then
              ⟨Event.read line :: s.events ++ [Event.printBot s.messages.getLast?],
               s.messages, true, none⟩
            else
              let r := loop oracle rest s.messages s.completed
              ⟨Event.read line :: s.events ++ Event.printBot s.messages.getLast? :: r.events,
               r.messages, r.completed, r.err⟩

/-- `main` (`onboardInstructor.ts` lines 212–282): one seed `app.invoke` with
the human message `Start onboarding` before any input is read, then the
readline loop. -/
def main (oracle : Oracle) (inputs : List String) : Run :=
  let s0 := step oracle [] false (Message.human "Start onboarding")
  match s0.err with
  | some e => ⟨s0.events, s0.messages, s0.completed, some e⟩
  | none =>
      let r := loop oracle inputs s0.messages s0.completed
      ⟨s0.events ++ Event.printBot s0.messages.getLast? :: r.events,
       r.messages, r.completed, r.err⟩

/-- The whole process (`main().catch(...)`, lines 285–287): the single
top-level catch logs any error escaping `main`. -/
def program (oracle : Oracle) (inputs : List String) : List Event :=
  let r := main oracle inputs
  match r.err with
  | some e => r.events ++ [Event.logError e]
  | none => r.events

end Instructor

namespace Chatbot

/-- Result of a chatbot run: the event trace, the accumulated transcript, the
collected data, and a pending error. -/
structure Run where
  events : List Event
  messages : List Message
  data : OnboardingData
  err : Option String

/-- One `app.invoke` of the chatbot graph (`__start__ → agent`, then the
conditional edge `shouldContinue`, which always returns `__end__` — so the
agent runs exactly once per invoke).  `main` passes `onboardingData: {}` with
every invoke, merged by the channel reducer; `callModel` (lines 87–127) sends
the templated system message prepended to the full state and merges whatever
`parseResponseForData` extracts from the reply. -/
def step (oracle : Oracle) (msgs : List Message) (data : OnboardingData)
    (newMsg : Message) : Run :=
  let history := messagesReducer msgs [newMsg]
  let dataIn := mergeData data emptyOnboardingData
  let sent := Message.system (systemContent dataIn) :: history
  match oracle sent with
  | Except.error e => ⟨[Event.invoke sent], history, dataIn, some e⟩
  | Except.ok resp =>
      let newData := parseResponseForData resp.content
      ⟨[Event.invoke sent],
       messagesReducer history [Message.ai resp.content resp.toolCalls],
       mergeData dataIn newData, none⟩

/-- The readline loop of `main` (`onboarding-chatbot.ts` lines 181–218): read
a line; on (case-insensitive) `exit` close and stop; otherwise invoke the app
and print the last message.  No completion check remains (it is commented out
in the source). -/
def loop (oracle : Oracle) : List String → List Message → OnboardingData → Run
  | [], msgs, data => ⟨[], msgs, data, none⟩
  | line :: rest, msgs, data =>
      if jsToLower line = "exit" then ⟨[Event.read line], msgs, data, none⟩
      else
        let s := step oracle msgs data (Message.human line)
        match s.err with
        | some e => ⟨Event.read line :: s.events, s.messages, s.data, some e⟩
        | none =>
            let r := loop oracle rest s.messages s.data
            ⟨Event.read line :: s.events ++ Event.printBot s.messages.getLast? :: r.events,
             r.messages, r.data, r.err⟩

/-- `main` (`onboarding-chatbot.ts` lines 165–221): the loop starts on empty
state; there is no seed invocation. -/
def main (oracle : Oracle) (inputs : List String) : Run :=
  loop oracle inputs [] emptyOnboardingData

/-- The whole process (`main().catch(...)`, lines 224–226). -/
def program (oracle : Oracle) (inputs : List String) : List Event :=
  let r := main oracle inputs
  match r.err with
  | some e => r.events ++ [Event.logError e]
  | none => r.events

end Chatbot

/-! ## Helper lemmas -/

/-- `splitOnChar` always produces at least one segment. -/
theorem splitOnChar_ne_nil (sep : Char) (l : List Char) :
    splitOnChar sep l ≠ [] := by
  induction l with
  | nil => simp [splitOnChar]
  | cons c t ih =>
      unfold splitOnChar
      split
      · simp
      · cases h : splitOnChar sep t with
        | nil => simp
        | cons a b => simp

/-- The first `splitOnChar` segment is the prefix before the first separator. -/
theorem splitOnChar_headD (sep : Char) (l : List Char) :
    (splitOnChar sep l).headD [] = l.takeWhile (· ≠ sep) := by
  induction l with
  | nil => simp [splitOnChar]
  | cons c t ih =>
      unfold splitOnChar
      split
      · next hc => simp [List.takeWhile, hc]
      · next hc =>
          cases h : splitOnChar sep t with
          | nil => exact absurd h (splitOnChar_ne_nil sep t)
          | cons a b =>
              rw [h] at ih
              simp only [List.headD_cons] at ih
              simp [List.takeWhile, hc, ih]

/-- Unfolding equation of `splitOnChar` on a cons cell. -/
theorem splitOnChar_cons (sep c : Char) (t : List Char) :
    splitOnChar sep (c :: t) =
      if c = sep then [] :: splitOnChar sep t
      else
        match splitOnChar sep t with
        | [] => [[c]]
        | h :: t' => (c :: h) :: t' := rfl

/-- When the text contains a colon, the second `split(':')` segment is the
text from just after the first colon up to the next colon or the end. -/
theorem splitOnChar_getD_one (l : List Char) :
    containsSub [':'] l = true →
    (splitOnChar ':' l).getD 1 [] =
      ((l.dropWhile (· ≠ ':')).drop 1).takeWhile (· ≠ ':') := by
  induction l with
  | nil => intro h; simp [containsSub] at h
  | cons c t ih =>
      intro h
      rw [splitOnChar_cons]
      by_cases hc : c = ':'
      · subst hc
        rw [if_pos rfl]
        cases hs : splitOnChar ':' t with
        | nil => exact absurd hs (splitOnChar_ne_nil ':' t)
        | cons a b =>
            have hh := splitOnChar_headD ':' t
            rw [hs] at hh
            simp only [List.headD_cons] at hh
            simp only [List.getD_cons_succ, List.getD_cons_zero,
              List.dropWhile_cons]
            simp [hh]
      · rw [if_neg hc]
        have ht : containsSub [':'] t = true := by
          unfold containsSub at h
          simp only [List.isPrefixOf, Bool.and_true, Bool.or_eq_true,
            beq_iff_eq] at h
          rcases h with h | h
          · exact absurd h.symm hc
          · unfold containsSub
            cases t with
            | nil => simp [containsSub] at h
            | cons a b => exact h
        cases hs : splitOnChar ':' t with
        | nil => exact absurd hs (splitOnChar_ne_nil ':' t)
        | cons a b =>
            have ihh := ih ht
            rw [hs] at ihh
            simp only [List.getD_cons_succ] at ihh
            dsimp only
            simp only [List.getD_cons_succ]
            rw [ihh, List.dropWhile_cons]
            simp [hc]

/-- The text between the first colon and the second colon (or the end), as the
claim describes it: drop up to and including the first colon, then take until
the next colon. -/
def betweenColons (cs : List Char) : List Char :=
  ((cs.dropWhile (· ≠ ':')).drop 1).takeWhile (· ≠ ':')


/-! ## Claim theorems -/

/-- Claim C2: in the string-matching entry point (`onboarding-chatbot.ts`),
the conditional routing function `shouldContinue` returns the end marker
`__end__` for every state, whether or not the collected `onboardingData` is
complete. -/
theorem c2_shouldContinue_always_ends (state : Chatbot.State) :
    Chatbot.shouldContinue state = "__end__" := by
  unfold Chatbot.shouldContinue
  dsimp only
  split <;> rfl

/-- Claim C8: the transcript is append-only: the `messages` reducer of both
entry points is list concatenation, so its first argument is a prefix of the
result, and one `app.invoke` of either graph only ever extends the transcript
at the end (the previous transcript is a prefix of the new one; nothing is
removed or reordered). -/
theorem c8_transcript_append_only :
    (∀ x y : List Message, messagesReducer x y = x ++ y) ∧
    (∀ x y : List Message, x <+: messagesReducer x y) ∧
    (∀ (oracle : Oracle) (msgs : List Message) (completed : Bool) (m : Message),
        msgs <+: (Instructor.step oracle msgs completed m).messages) ∧
    (∀ (oracle : Oracle) (msgs : List Message) (data : OnboardingData) (m : Message),
        msgs <+: (Chatbot.step oracle msgs data m).messages) := by
  refine ⟨fun x y => rfl, fun x y => ⟨y, rfl⟩, ?_, ?_⟩
  · intro oracle msgs completed m
    unfold Instructor.step
    dsimp only
    cases oracle (Message.system Instructor.systemContent :: messagesReducer msgs [m]) with
    | error e => exact ⟨[m], rfl⟩
    | ok resp =>
        dsimp only
        split
        · exact ⟨m :: Message.ai resp.content resp.toolCalls ::
            (Instructor.toolNodeStep resp.toolCalls completed).1,
            by simp [messagesReducer]⟩
        · exact ⟨[m, Message.ai resp.content resp.toolCalls],
            by simp [messagesReducer]⟩
  · intro oracle msgs data m
    unfold Chatbot.step
    dsimp only
    cases oracle (Message.system (Chatbot.systemContent (mergeData data emptyOnboardingData)) ::
        messagesReducer msgs [m]) with
    | error e => exact ⟨[m], rfl⟩
    | ok resp =>
        exact ⟨[m, Message.ai resp.content resp.toolCalls],
          by simp [messagesReducer]⟩

/-- Claim C9: `parseResponseForData` populates at most `businessName`: every
other field of the returned record is absent; `businessName` is present
exactly when the reply contains both the substring `business name` and a
colon, and in that case it is the text between the first and second colon
(or the end), with surrounding whitespace trimmed. -/
theorem c9_parse_only_businessName (content : String) :
    (parseResponseForData content).firstServices = none ∧
    (parseResponseForData content).businessHours = none ∧
    (parseResponseForData content).yourEmailAddress = none ∧
    (parseResponseForData content).doYouWantUsToTakePaymentsDirectlyFromYourCustomers = none ∧
    ((parseResponseForData content).businessName.isSome =
      (containsSub "business name".data content.data &&
       containsSub ":".data content.data)) ∧
    (containsSub "business name".data content.data = true →
      containsSub ":".data content.data = true →
      (parseResponseForData content).businessName =
        some (String.mk (jsTrim (betweenColons content.data)))) := by
  unfold parseResponseForData
  dsimp only
  split
  · next h =>
      refine ⟨rfl, rfl, rfl, rfl, by simp [h], ?_⟩
      intro _ h2
      dsimp only
      rw [splitOnChar_getD_one content.data h2]
      rfl
  · next h =>
      simp only [Bool.not_eq_true] at h
      refine ⟨rfl, rfl, rfl, rfl, by simp [h, emptyOnboardingData], ?_⟩
      intro h1 h2
      rw [h1, h2] at h
      simp at h

/-- Witness for C9 at a concrete reply. -/
theorem c9_witness :
    (parseResponseForData "Great, your business name: Acme Cuts ").businessName =
      some (String.mk (jsTrim (betweenColons "Great, your business name: Acme Cuts ".data))) :=
  (c9_parse_only_businessName "Great, your business name: Acme Cuts ").2.2.2.2.2
    (by decide) (by decide)

/-- Claim C1: the `complete` structured action's payload validation against
`onboardInstructorEssentialsSchema` rejects every payload that misses one of
the five required top-level fields, carries an additional property at the top
level or inside `firstServices` or a `businessHours` entry, or has a
`businessHours` entry whose `dayOfWeek` is outside the seven canonical day
names — for any email-format predicate `emailOk` of the schema library. -/
theorem c1_complete_schema_validation (emailOk : String → Bool)
    (kvs : List (String × Json)) :
    ((∃ k ∈ topKeys, lookupJson k kvs = none) →
        validOnboardingRecord emailOk (Json.obj kvs) = false) ∧
    ((∃ p ∈ kvs, ¬ p.1 ∈ topKeys) →
        validOnboardingRecord emailOk (Json.obj kvs) = false) ∧
    (∀ fkvs, lookupJson "firstServices" kvs = some (Json.obj fkvs) →
        (∃ p ∈ fkvs, ¬ p.1 ∈ fsKeys) →
        validOnboardingRecord emailOk (Json.obj kvs) = false) ∧
    (∀ items, lookupJson "businessHours" kvs = some (Json.arr items) →
        ∀ hkvs, Json.obj hkvs ∈ items →
        ((∃ p ∈ hkvs, ¬ p.1 ∈ hourKeys) ∨
         (∃ d, lookupJson "dayOfWeek" hkvs = some (Json.str d) ∧ ¬ d ∈ dayNames)) →
        validOnboardingRecord emailOk (Json.obj kvs) = false) := by
  refine ⟨?_, ?_, ?_, ?_⟩
  · rintro ⟨k, hk, hnone⟩
    cases hv : validOnboardingRecord emailOk (Json.obj kvs) with
    | false => rfl
    | true =>
        exfalso
        simp only [validOnboardingRecord, Bool.and_eq_true] at hv
        obtain ⟨⟨⟨⟨⟨⟨h1, h2⟩, h3⟩, h4⟩, h5⟩, h6⟩, h7⟩ := hv
        simp only [requiredOk, List.all_eq_true] at h6
        have := h6 k hk
        rw [hnone] at this
        simp at this
  · rintro ⟨p, hp, hnot⟩
    cases hv : validOnboardingRecord emailOk (Json.obj kvs) with
    | false => rfl
    | true =>
        exfalso
        simp only [validOnboardingRecord, Bool.and_eq_true] at hv
        obtain ⟨⟨⟨⟨⟨⟨h1, h2⟩, h3⟩, h4⟩, h5⟩, h6⟩, h7⟩ := hv
        simp only [noExtra, List.all_eq_true] at h7
        exact hnot (List.mem_of_elem_eq_true (h7 p hp))
  · rintro fkvs hfs ⟨p, hp, hnot⟩
    cases hv : validOnboardingRecord emailOk (Json.obj kvs) with
    | false => rfl
    | true =>
        exfalso
        simp only [validOnboardingRecord, Bool.and_eq_true] at hv
        obtain ⟨⟨⟨⟨⟨⟨h1, h2⟩, h3⟩, h4⟩, h5⟩, h6⟩, h7⟩ := hv
        rw [hfs] at h2
        simp only [propOk, validService, Bool.and_eq_true] at h2
        obtain ⟨⟨⟨⟨⟨g1, g2⟩, g3⟩, g4⟩, g5⟩, g6⟩ := h2
        simp only [noExtra, List.all_eq_true] at g6
        exact hnot (List.mem_of_elem_eq_true (g6 p hp))
  · rintro items hbh hkvs hmem hbad
    cases hv : validOnboardingRecord emailOk (Json.obj kvs) with
    | false => rfl
    | true =>
        exfalso
        simp only [validOnboardingRecord, Bool.and_eq_true] at hv
        obtain ⟨⟨⟨⟨⟨⟨h1, h2⟩, h3⟩, h4⟩, h5⟩, h6⟩, h7⟩ := hv
        rw [hbh] at h3
        simp only [propOk, List.all_eq_true] at h3
        have hvh := h3 (Json.obj hkvs) hmem
        simp only [validHours, Bool.and_eq_true] at hvh
        obtain ⟨⟨⟨⟨g1, g2⟩, g3⟩, g4⟩, g5⟩ := hvh
        rcases hbad with ⟨p, hp, hnot⟩ | ⟨d, hday, hnot⟩
        · simp only [noExtra, List.all_eq_true] at g5
          exact hnot (List.mem_of_elem_eq_true (g5 p hp))
        · rw [hday] at g3
          simp only [propOk] at g3
          exact hnot (List.mem_of_elem_eq_true g3)

/-- Witness for C1: concrete rejected payloads for each rejection clause. -/
theorem c1_witness :
    validOnboardingRecord (fun _ => true) (Json.obj []) = false ∧
    validOnboardingRecord (fun _ => true)
      (Json.obj [("surprise", Json.null)]) = false ∧
    validOnboardingRecord (fun _ => true)
      (Json.obj [("firstServices", Json.obj [("tip", Json.num 5)])]) = false ∧
    validOnboardingRecord (fun _ => true)
      (Json.obj [("businessHours",
        Json.arr [Json.obj [("dayOfWeek", Json.str "Funday")]])]) = false := by
  refine ⟨?_, ?_, ?_, ?_⟩
  · exact (c1_complete_schema_validation (fun _ => true) []).1
      ⟨"businessName", by simp [topKeys], rfl⟩
  · exact (c1_complete_schema_validation (fun _ => true)
        [("surprise", Json.null)]).2.1
      ⟨("surprise", Json.null), by simp, by simp [topKeys]⟩
  · exact (c1_complete_schema_validation (fun _ => true)
        [("firstServices", Json.obj [("tip", Json.num 5)])]).2.2.1
      [("tip", Json.num 5)] rfl
      ⟨("tip", Json.num 5), by simp, by simp [fsKeys]⟩
  · exact (c1_complete_schema_validation (fun _ => true)
        [("businessHours",
          Json.arr [Json.obj [("dayOfWeek", Json.str "Funday")]])]).2.2.2
      [Json.obj [("dayOfWeek", Json.str "Funday")]] rfl
      [("dayOfWeek", Json.str "Funday")] (by simp)
      (Or.inr ⟨"Funday", rfl, by simp [dayNames]⟩)

/-! ## Trace calculus helpers -/

theorem invokeLists_append (a b : List Event) :
    invokeLists (a ++ b) = invokeLists a ++ invokeLists b :=
  List.filterMap_append a b _

theorem invokeLists_read (l : String) (evts : List Event) :
    invokeLists (Event.read l :: evts) = invokeLists evts := rfl

theorem invokeLists_printBot (m : Option Message) (evts : List Event) :
    invokeLists (Event.printBot m :: evts) = invokeLists evts := rfl

theorem invokeLists_toolRun (n : String) (evts : List Event) :
    invokeLists (Event.toolRun n :: evts) = invokeLists evts := rfl

theorem invokeLists_logError (e : String) (evts : List Event) :
    invokeLists (Event.logError e :: evts) = invokeLists evts := rfl

theorem invokeLists_invoke (sent : List Message) (evts : List Event) :
    invokeLists (Event.invoke sent :: evts) = sent :: invokeLists evts := rfl

theorem numInvokes_append (a b : List Event) :
    numInvokes (a ++ b) = numInvokes a + numInvokes b := by
  simp [numInvokes, List.filter_append]

theorem numInvokes_read (l : String) (evts : List Event) :
    numInvokes (Event.read l :: evts) = numInvokes evts := rfl

theorem numInvokes_printBot (m : Option Message) (evts : List Event) :
    numInvokes (Event.printBot m :: evts) = numInvokes evts := rfl

theorem numInvokes_invoke (sent : List Message) (evts : List Event) :
    numInvokes (Event.invoke sent :: evts) = numInvokes evts + 1 := by
  simp [numInvokes, List.filter, isInvoke]

theorem sysCount_append (a b : List Message) :
    sysCount (a ++ b) = sysCount a + sysCount b := by
  simp [sysCount, List.filter_append]

/-! ## Step lemmas for the instructor graph -/

/-- The message list an instructor `app.invoke` sends to the model. -/
def instrSent (msgs : List Message) (newMsg : Message) : List Message :=
  Message.system Instructor.systemContent :: messagesReducer msgs [newMsg]

/-- One instructor `app.invoke` performs exactly one model invocation, with
the fixed system message prepended to the whole accumulated transcript plus
the new message. -/
theorem instrStep_invokeLists (oracle : Oracle) (msgs : List Message)
    (completed : Bool) (newMsg : Message) :
    invokeLists (Instructor.step oracle msgs completed newMsg).events =
      [instrSent msgs newMsg] := by
  unfold Instructor.step
  dsimp only
  cases oracle (Message.system Instructor.systemContent :: messagesReducer msgs [newMsg]) with
  | error e => rfl
  | ok resp =>
      dsimp only
      split
      · simp [invokeLists, instrSent, List.filterMap_map]
      · rfl

/-- The instructor step's event trace starts with its model invocation. -/
theorem instrStep_events (oracle : Oracle) (msgs : List Message)
    (completed : Bool) (newMsg : Message) :
    ∃ tl, (Instructor.step oracle msgs completed newMsg).events =
        Event.invoke (instrSent msgs newMsg) :: tl ∧ invokeLists tl = [] := by
  unfold Instructor.step
  dsimp only
  cases oracle (Message.system Instructor.systemContent :: messagesReducer msgs [newMsg]) with
  | error e => exact ⟨[], rfl, rfl⟩
  | ok resp =>
      dsimp only
      split
      · refine ⟨resp.toolCalls.map (fun tc => Event.toolRun tc.name), ?_, ?_⟩
        · rfl
        · simp [invokeLists, List.filterMap_map]
      · exact ⟨[], rfl, rfl⟩

/-- A failing instructor step's trace is exactly its model invocation. -/
theorem instrStep_err_events (oracle : Oracle) (msgs : List Message)
    (completed : Bool) (newMsg : Message) (e : String) :
    (Instructor.step oracle msgs completed newMsg).err = some e →
    (Instructor.step oracle msgs completed newMsg).events =
      [Event.invoke (instrSent msgs newMsg)] := by
  unfold Instructor.step
  dsimp only
  cases oracle (Message.system Instructor.systemContent :: messagesReducer msgs [newMsg]) with
  | error e' => intro _; rfl
  | ok resp =>
      dsimp only
      split
      · intro h; cases h
      · intro h; cases h

/-- The history sent to the model is a prefix of the step's new transcript. -/
theorem instrStep_history_le (oracle : Oracle) (msgs : List Message)
    (completed : Bool) (newMsg : Message) :
    messagesReducer msgs [newMsg] <+:
      (Instructor.step oracle msgs completed newMsg).messages := by
  unfold Instructor.step
  dsimp only
  cases oracle (Message.system Instructor.systemContent :: messagesReducer msgs [newMsg]) with
  | error e => exact List.prefix_refl _
  | ok resp =>
      dsimp only
      split
      · exact ⟨Message.ai resp.content resp.toolCalls ::
          (Instructor.toolNodeStep resp.toolCalls completed).1,
          by simp [messagesReducer]⟩
      · exact ⟨[Message.ai resp.content resp.toolCalls], rfl⟩

/-- The instructor step appends no system-role message to the transcript. -/
theorem sysCount_cons (m : Message) (rest : List Message) :
    sysCount (m :: rest) = (if isSystemMsg m then 1 else 0) + sysCount rest := by
  by_cases h : isSystemMsg m
  · simp [sysCount, List.filter_cons, h, Nat.add_comm]
  · simp [sysCount, List.filter_cons, h]

/-- The instructor step appends no system-role message to the transcript. -/
theorem instrStep_sysCount (oracle : Oracle) (msgs : List Message)
    (completed : Bool) (newMsg : Message) :
    isSystemMsg newMsg = false → sysCount msgs = 0 →
    sysCount (Instructor.step oracle msgs completed newMsg).messages = 0 := by
  intro hm h0
  have hnew : sysCount [newMsg] = 0 := by
    simp [sysCount, List.filter_cons, hm]
  have hai : ∀ (c : String) (tcs : List ToolCall),
      sysCount [Message.ai c tcs] = 0 := fun _ _ => rfl
  have hmap : ∀ tcs : List ToolCall,
      sysCount (tcs.map fun tc => Message.toolResult tc.args) = 0 := by
    intro tcs
    induction tcs with
    | nil => rfl
    | cons a b ih => rw [List.map_cons, sysCount_cons]; simpa [isSystemMsg] using ih
  unfold Instructor.step
  dsimp only
  cases oracle (Message.system Instructor.systemContent :: messagesReducer msgs [newMsg]) with
  | error e =>
      show sysCount (msgs ++ [newMsg]) = 0
      rw [sysCount_append, h0, hnew]
  | ok resp =>
      dsimp only
      split
      · show sysCount (((msgs ++ [newMsg]) ++ [Message.ai resp.content resp.toolCalls]) ++
            resp.toolCalls.map fun tc => Message.toolResult tc.args) = 0
        rw [sysCount_append, sysCount_append, sysCount_append, h0, hnew, hai, hmap]
      · show sysCount ((msgs ++ [newMsg]) ++ [Message.ai resp.content resp.toolCalls]) = 0
        rw [sysCount_append, sysCount_append, h0, hnew, hai]

/-! ## Step lemmas for the chatbot graph -/

/-- The message list a chatbot `app.invoke` sends to the model. -/
def chatSent (msgs : List Message) (data : OnboardingData) (newMsg : Message) :
    List Message :=
  Message.system (Chatbot.systemContent (mergeData data emptyOnboardingData)) ::
    messagesReducer msgs [newMsg]

/-- One chatbot `app.invoke` performs exactly one model invocation, with the
templated system message prepended to the whole accumulated transcript plus
the new message. -/
theorem chatStep_events (oracle : Oracle) (msgs : List Message)
    (data : OnboardingData) (newMsg : Message) :
    (Chatbot.step oracle msgs data newMsg).events =
      [Event.invoke (chatSent msgs data newMsg)] := by
  unfold Chatbot.step
  dsimp only
  cases oracle (Message.system (Chatbot.systemContent (mergeData data emptyOnboardingData)) ::
      messagesReducer msgs [newMsg]) with
  | error e => rfl
  | ok resp => rfl

/-- The history sent to the model is a prefix of the step's new transcript. -/
theorem chatStep_history_le (oracle : Oracle) (msgs : List Message)
    (data : OnboardingData) (newMsg : Message) :
    messagesReducer msgs [newMsg] <+:
      (Chatbot.step oracle msgs data newMsg).messages := by
  unfold Chatbot.step
  dsimp only
  cases oracle (Message.system (Chatbot.systemContent (mergeData data emptyOnboardingData)) ::
      messagesReducer msgs [newMsg]) with
  | error e => exact List.prefix_refl _
  | ok resp => exact ⟨[Message.ai resp.content resp.toolCalls], rfl⟩

/-- The chatbot step appends no system-role message to the transcript. -/
theorem chatStep_sysCount (oracle : Oracle) (msgs : List Message)
    (data : OnboardingData) (newMsg : Message) :
    isSystemMsg newMsg = false → sysCount msgs = 0 →
    sysCount (Chatbot.step oracle msgs data newMsg).messages = 0 := by
  intro hm h0
  have hnew : sysCount [newMsg] = 0 := by
    simp [sysCount, List.filter_cons, hm]
  have hai : ∀ (c : String) (tcs : List ToolCall),
      sysCount [Message.ai c tcs] = 0 := fun _ _ => rfl
  unfold Chatbot.step
  dsimp only
  cases oracle (Message.system (Chatbot.systemContent (mergeData data emptyOnboardingData)) ::
      messagesReducer msgs [newMsg]) with
  | error e =>
      show sysCount (msgs ++ [newMsg]) = 0
      rw [sysCount_append, h0, hnew]
  | ok resp =>
      show sysCount ((msgs ++ [newMsg]) ++ [Message.ai resp.content resp.toolCalls]) = 0
      rw [sysCount_append, sysCount_append, h0, hnew, hai]

/-! ## Loop shape lemmas -/

/-- A non-exit line makes the instructor loop read it and then run one
`app.invoke`, whose events come right after the read. -/
theorem instrLoop_cons_events (oracle : Oracle) (line : String)
    (rest : List String) (msgs : List Message) (completed : Bool)
    (h : ¬ jsToLower line = "exit") :
    ∃ tail, (Instructor.loop oracle (line :: rest) msgs completed).events =
      Event.read line ::
        (Instructor.step oracle msgs completed (Message.human line)).events ++ tail := by
  unfold Instructor.loop
  rw [if_neg h]
  dsimp only
  split
  · exact ⟨[], by simp⟩
  · split
    · exact ⟨[Event.printBot (Instructor.step oracle msgs completed
        (Message.human line)).messages.getLast?], rfl⟩
    · exact ⟨Event.printBot (Instructor.step oracle msgs completed
          (Message.human line)).messages.getLast? ::
        (Instructor.loop oracle rest
          (Instructor.step oracle msgs completed (Message.human line)).messages
          (Instructor.step oracle msgs completed (Message.human line)).completed).events,
        rfl⟩

/-- A non-exit line makes the chatbot loop read it and then run one
`app.invoke`, whose events come right after the read. -/
theorem chatLoop_cons_events (oracle : Oracle) (line : String)
    (rest : List String) (msgs : List Message) (data : OnboardingData)
    (h : ¬ jsToLower line = "exit") :
    ∃ tail, (Chatbot.loop oracle (line :: rest) msgs data).events =
      Event.read line ::
        (Chatbot.step oracle msgs data (Message.human line)).events ++ tail := by
  unfold Chatbot.loop
  rw [if_neg h]
  dsimp only
  split
  · exact ⟨[], by simp⟩
  · exact ⟨Event.printBot (Chatbot.step oracle msgs data
        (Message.human line)).messages.getLast? ::
      (Chatbot.loop oracle rest
        (Chatbot.step oracle msgs data (Message.human line)).messages
        (Chatbot.step oracle msgs data (Message.human line)).data).events,
      rfl⟩

/-- A concrete oracle that always answers with plain conversational text. -/
def oracleConst : Oracle :=
  fun _ => Except.ok ⟨"Hi! What is the name of your business?", []⟩

/-- Claim C3: in both entry points the loop ends at the read, with no model
invocation for that turn, exactly when the line lowercases to `exit`; for any
other line the turn proceeds straight to a model invocation (the sentinel
check happens before the invocation). -/
theorem c3_exit_sentinel_checked_first (oracle : Oracle) (line : String)
    (rest : List String) (msgs : List Message) (data : OnboardingData)
    (completed : Bool) :
    (jsToLower line = "exit" →
        Instructor.loop oracle (line :: rest) msgs completed =
          ⟨[Event.read line], msgs, completed, none⟩ ∧
        Chatbot.loop oracle (line :: rest) msgs data =
          ⟨[Event.read line], msgs, data, none⟩) ∧
    (¬ jsToLower line = "exit" →
        (∃ tl, (Instructor.loop oracle (line :: rest) msgs completed).events =
            Event.read line ::
              Event.invoke (instrSent msgs (Message.human line)) :: tl) ∧
        (∃ tl, (Chatbot.loop oracle (line :: rest) msgs data).events =
            Event.read line ::
              Event.invoke (chatSent msgs data (Message.human line)) :: tl)) := by
  constructor
  · intro h
    constructor
    · unfold Instructor.loop
      rw [if_pos h]
    · unfold Chatbot.loop
      rw [if_pos h]
  · intro h
    constructor
    · obtain ⟨tail, htail⟩ := instrLoop_cons_events oracle line rest msgs completed h
      obtain ⟨tl, hev, -⟩ := instrStep_events oracle msgs completed (Message.human line)
      exact ⟨tl ++ tail, by rw [htail, hev]; simp⟩
    · obtain ⟨tail, htail⟩ := chatLoop_cons_events oracle line rest msgs data h
      exact ⟨tail, by rw [htail, chatStep_events]; rfl⟩

/-- Witness for C3: `EXIT` ends the loop with no invocation; `hello` leads to
an invocation. -/
theorem c3_witness :
    Instructor.loop oracleConst ["EXIT"] [] false =
      ⟨[Event.read "EXIT"], [], false, none⟩ ∧
    ∃ tl, (Chatbot.loop oracleConst ["hello"] [] emptyOnboardingData).events =
      Event.read "hello" ::
        Event.invoke (chatSent [] emptyOnboardingData (Message.human "hello")) :: tl :=
  ⟨((c3_exit_sentinel_checked_first oracleConst "EXIT" [] [] emptyOnboardingData
      false).1 (by decide)).1,
   ((c3_exit_sentinel_checked_first oracleConst "hello" [] [] emptyOnboardingData
      false).2 (by decide)).2⟩

/-- Claim C10: the instructor entry point always performs its seeded model
invocation (with the single message `Start onboarding`) before any input is
read: it is the first event of every run, so every run has at least one model
invocation — also when the first typed line is the exit sentinel. -/
theorem c10_seed_invocation_first (oracle : Oracle) (inputs : List String) :
    (Instructor.program oracle inputs).head? =
      some (Event.invoke (instrSent [] (Message.human "Start onboarding"))) ∧
    1 ≤ numInvokes (Instructor.program oracle inputs) := by
  obtain ⟨tl, hev, -⟩ := instrStep_events oracle [] false (Message.human "Start onboarding")
  have hone : ∀ x : List Event,
      1 ≤ numInvokes (Event.invoke (instrSent [] (Message.human "Start onboarding")) :: x) := by
    intro x
    rw [numInvokes_invoke]
    omega
  cases h0 : (Instructor.step oracle [] false (Message.human "Start onboarding")).err with
  | some e =>
      unfold Instructor.program Instructor.main
      dsimp only
      rw [h0]
      dsimp only
      rw [hev, List.cons_append]
      exact ⟨rfl, hone _⟩
  | none =>
      unfold Instructor.program Instructor.main
      dsimp only
      rw [h0]
      dsimp only
      cases hr : (Instructor.loop oracle inputs
          (Instructor.step oracle [] false (Message.human "Start onboarding")).messages
          (Instructor.step oracle [] false (Message.human "Start onboarding")).completed).err with
      | some e =>
          dsimp only
          rw [hev, List.cons_append, List.cons_append]
          exact ⟨rfl, hone _⟩
      | none =>
          dsimp only
          rw [hev, List.cons_append]
          exact ⟨rfl, hone _⟩

theorem numInvokes_toolRun (n : String) (evts : List Event) :
    numInvokes (Event.toolRun n :: evts) = numInvokes evts := rfl

theorem numInvokes_logError (e : String) (evts : List Event) :
    numInvokes (Event.logError e :: evts) = numInvokes evts := rfl

/-- Invocation count equals the number of recorded invocation message lists. -/
theorem numInvokes_eq_length (evts : List Event) :
    numInvokes evts = (invokeLists evts).length := by
  induction evts with
  | nil => rfl
  | cons e rest ih =>
      cases e with
      | read l => rw [numInvokes_read, invokeLists_read]; exact ih
      | invoke s => rw [numInvokes_invoke, invokeLists_invoke, List.length_cons, ih]
      | toolRun n => rw [numInvokes_toolRun, invokeLists_toolRun]; exact ih
      | printBot m => rw [numInvokes_printBot, invokeLists_printBot]; exact ih
      | logError e => rw [numInvokes_logError, invokeLists_logError]; exact ih

/-- Claim C4 (amended): when the `complete` tool runs during a loop turn, the
completion flag — checked at the end of that loop body — ends the
conversation: the remaining input lines are never processed and that turn's
single model invocation is the last one.  (When the tool instead runs during
the pre-loop seed invocation, the first loop iteration still performs one
model invocation before the flag is checked; see the counterexample.) -/
theorem c4_completion_stops_loop (oracle : Oracle) (line : String)
    (rest : List String) (msgs : List Message) (completed : Bool)
    (hne : ¬ jsToLower line = "exit")
    (herr : (Instructor.step oracle msgs completed (Message.human line)).err = none)
    (hdone : (Instructor.step oracle msgs completed (Message.human line)).completed = true) :
    Instructor.loop oracle (line :: rest) msgs completed =
      Instructor.loop oracle [line] msgs completed ∧
    numInvokes (Instructor.loop oracle (line :: rest) msgs completed).events = 1 := by
  have hunfold : ∀ rs : List String,
      Instructor.loop oracle (line :: rs) msgs completed =
        ⟨Event.read line ::
            (Instructor.step oracle msgs completed (Message.human line)).events ++
            [Event.printBot (Instructor.step oracle msgs completed
              (Message.human line)).messages.getLast?],
         (Instructor.step oracle msgs completed (Message.human line)).messages,
         true, none⟩ := by
    intro rs
    unfold Instructor.loop
    rw [if_neg hne]
    dsimp only
    split
    · next e he => rw [herr] at he; cases he
    · next he => rw [if_pos hdone]
  refine ⟨(hunfold rest).trans (hunfold []).symm, ?_⟩
  rw [hunfold rest]
  obtain ⟨tl, hev, hnoinv⟩ := instrStep_events oracle msgs completed (Message.human line)
  dsimp only
  rw [hev]
  have h1 : (List.filter isInvoke tl).length = 0 := by
    have := numInvokes_eq_length tl
    rw [hnoinv] at this
    simpa [numInvokes] using this
  simp [numInvokes, List.filter_cons, List.filter_append, isInvoke, h1]

/-- A concrete oracle that requests the `complete` tool right away. -/
def oracleComplete : Oracle :=
  fun _ => Except.ok ⟨"Done, marking complete.", [⟨"complete", Json.obj []⟩]⟩

/-- Witness for the amended C4: with a completing turn, the extra input line
is never processed and the turn's invocation is the only one. -/
theorem c4_witness :
    Instructor.loop oracleComplete ["done", "extra"] [] false =
      Instructor.loop oracleComplete ["done"] [] false ∧
    numInvokes (Instructor.loop oracleComplete ["done", "extra"] [] false).events = 1 :=
  c4_completion_stops_loop oracleComplete "done" ["extra"] [] false
    (by decide) rfl rfl

/-- A concrete oracle that requests the `complete` tool on the seed
invocation (two messages sent: system plus `Start onboarding`) and answers
conversationally afterwards. -/
def oracleSeedComplete : Oracle :=
  fun sent =>
    if sent.length = 2 then
      Except.ok ⟨"All done!", [⟨"complete", Json.obj []⟩]⟩
    else
      Except.ok ⟨"Welcome back", []⟩

/-- Counterexample to C4 as stated: when the `complete` tool runs during the
seed invocation (completion flag already true before the loop starts), the
first loop iteration still performs a model invocation — the trace has the
tool execution at index 1 and one more invocation after it. -/
theorem c4_counterexample :
    (Instructor.program oracleSeedComplete ["hi"])[1]? =
      some (Event.toolRun "complete") ∧
    numInvokes ((Instructor.program oracleSeedComplete ["hi"]).drop 2) = 1 :=
  ⟨rfl, rfl⟩

/-- Claim C7: when the seed invocation answers conversationally (no tool
call) and the user types `exit` at the first prompt, the loop terminates
right after the read, the completion flag remains false, and the `complete`
tool never runs (no structured payload is produced). -/
theorem c7_exit_first_prompt (oracle : Oracle) (rest : List String)
    (cont : String)
    (hok : oracle (instrSent [] (Message.human "Start onboarding")) =
      Except.ok ⟨cont, []⟩) :
    Instructor.main oracle ("exit" :: rest) =
      ⟨[Event.invoke (instrSent [] (Message.human "Start onboarding")),
        Event.printBot (some (Message.ai cont [])),
        Event.read "exit"],
       [Message.human "Start onboarding", Message.ai cont []],
       false, none⟩ ∧
    (Instructor.main oracle ("exit" :: rest)).completed = false ∧
    ∀ n, Event.toolRun n ∉ (Instructor.main oracle ("exit" :: rest)).events := by
  have hstep : Instructor.step oracle [] false (Message.human "Start onboarding") =
      ⟨[Event.invoke (instrSent [] (Message.human "Start onboarding"))],
       [Message.human "Start onboarding", Message.ai cont []],
       false, none⟩ := by
    unfold instrSent at hok
    unfold Instructor.step
    dsimp only
    rw [hok]
    rfl
  have hmain : Instructor.main oracle ("exit" :: rest) =
      ⟨[Event.invoke (instrSent [] (Message.human "Start onboarding")),
        Event.printBot (some (Message.ai cont [])),
        Event.read "exit"],
       [Message.human "Start onboarding", Message.ai cont []],
       false, none⟩ := by
    unfold Instructor.main
    dsimp only
    rw [hstep]
    rfl
  refine ⟨hmain, by rw [hmain], ?_⟩
  intro n hmem
  rw [hmain] at hmem
  simp at hmem

/-- Witness for C7 at the conversational oracle. -/
theorem c7_witness :
    Instructor.main oracleConst ["exit"] =
      ⟨[Event.invoke (instrSent [] (Message.human "Start onboarding")),
        Event.printBot
          (some (Message.ai "Hi! What is the name of your business?" [])),
        Event.read "exit"],
       [Message.human "Start onboarding",
        Message.ai "Hi! What is the name of your business?" []],
       false, none⟩ ∧
    (Instructor.main oracleConst ["exit"]).completed = false ∧
    ∀ n, Event.toolRun n ∉ (Instructor.main oracleConst ["exit"]).events :=
  c7_exit_first_prompt oracleConst [] "Hi! What is the name of your business?" rfl

/-- Either an instructor loop run succeeds, or its trace ends at the failing
model invocation (nothing after it: no retry, no further invocation). -/
theorem instrLoop_shape (oracle : Oracle) (inputs : List String) :
    ∀ (msgs : List Message) (completed : Bool),
    (Instructor.loop oracle inputs msgs completed).err = none ∨
    ∃ pre sent e, (Instructor.loop oracle inputs msgs completed).err = some e ∧
      (Instructor.loop oracle inputs msgs completed).events =
        pre ++ [Event.invoke sent] := by
  induction inputs with
  | nil => intro msgs completed; exact Or.inl rfl
  | cons line rest ih =>
      intro msgs completed
      unfold Instructor.loop
      by_cases hex : jsToLower line = "exit"
      · rw [if_pos hex]
        exact Or.inl rfl
      · rw [if_neg hex]
        dsimp only
        cases herr : (Instructor.step oracle msgs completed (Message.human line)).err with
        | some e' =>
            refine Or.inr ⟨[Event.read line],
              instrSent msgs (Message.human line), e', rfl, ?_⟩
            dsimp only
            rw [instrStep_err_events oracle msgs completed (Message.human line) e' herr]
            rfl
        | none =>
            by_cases hc : (Instructor.step oracle msgs completed
                (Message.human line)).completed = true
            · rw [if_pos hc]
              exact Or.inl rfl
            · rw [if_neg hc]
              rcases ih (Instructor.step oracle msgs completed (Message.human line)).messages
                  (Instructor.step oracle msgs completed (Message.human line)).completed with
                hnone | ⟨pre, sent, e, herr2, hev⟩
              · exact Or.inl hnone
              · refine Or.inr ⟨Event.read line ::
                    (Instructor.step oracle msgs completed (Message.human line)).events ++
                    Event.printBot (Instructor.step oracle msgs completed
                      (Message.human line)).messages.getLast? :: pre,
                  sent, e, herr2, ?_⟩
                dsimp only
                rw [hev]
                simp

/-- Either a chatbot loop run succeeds, or its trace ends at the failing
model invocation. -/
theorem chatLoop_shape (oracle : Oracle) (inputs : List String) :
    ∀ (msgs : List Message) (data : OnboardingData),
    (Chatbot.loop oracle inputs msgs data).err = none ∨
    ∃ pre sent e, (Chatbot.loop oracle inputs msgs data).err = some e ∧
      (Chatbot.loop oracle inputs msgs data).events =
        pre ++ [Event.invoke sent] := by
  induction inputs with
  | nil => intro msgs data; exact Or.inl rfl
  | cons line rest ih =>
      intro msgs data
      unfold Chatbot.loop
      by_cases hex : jsToLower line = "exit"
      · rw [if_pos hex]
        exact Or.inl rfl
      · rw [if_neg hex]
        dsimp only
        cases herr : (Chatbot.step oracle msgs data (Message.human line)).err with
        | some e' =>
            refine Or.inr ⟨[Event.read line],
              chatSent msgs data (Message.human line), e', rfl, ?_⟩
            dsimp only
            rw [chatStep_events oracle msgs data (Message.human line)]
            rfl
        | none =>
            rcases ih (Chatbot.step oracle msgs data (Message.human line)).messages
                (Chatbot.step oracle msgs data (Message.human line)).data with
              hnone | ⟨pre, sent, e, herr2, hev⟩
            · exact Or.inl hnone
            · refine Or.inr ⟨Event.read line ::
                  (Chatbot.step oracle msgs data (Message.human line)).events ++
                  Event.printBot (Chatbot.step oracle msgs data
                    (Message.human line)).messages.getLast? :: pre,
                sent, e, herr2, ?_⟩
              dsimp only
              rw [hev]
              simp

/-- A failing instructor run ends with the failing invocation followed
directly by the top-level catch's log. -/
theorem instrProgram_err (oracle : Oracle) (inputs : List String) (e : String)
    (h : (Instructor.main oracle inputs).err = some e) :
    ∃ pre sent, Instructor.program oracle inputs =
      pre ++ [Event.invoke sent, Event.logError e] := by
  have hshape : ∃ pre sent,
      (Instructor.main oracle inputs).events = pre ++ [Event.invoke sent] := by
    unfold Instructor.main at h ⊢
    dsimp only at h ⊢
    cases h0 : (Instructor.step oracle [] false (Message.human "Start onboarding")).err with
    | some e0 =>
        dsimp only
        exact ⟨[], instrSent [] (Message.human "Start onboarding"),
          by rw [instrStep_err_events oracle [] false
              (Message.human "Start onboarding") e0 h0]; rfl⟩
    | none =>
        rw [h0] at h
        dsimp only at h ⊢
        rcases instrLoop_shape oracle inputs
            (Instructor.step oracle [] false (Message.human "Start onboarding")).messages
            (Instructor.step oracle [] false (Message.human "Start onboarding")).completed with
          hnone | ⟨pre, sent, e', herr2, hev⟩
        · rw [h] at hnone; cases hnone
        · refine ⟨(Instructor.step oracle [] false (Message.human "Start onboarding")).events ++
            Event.printBot (Instructor.step oracle [] false
              (Message.human "Start onboarding")).messages.getLast? :: pre, sent, ?_⟩
          rw [hev]
          simp
  obtain ⟨pre, sent, hev⟩ := hshape
  unfold Instructor.program
  dsimp only
  rw [h, hev]
  exact ⟨pre, sent, by simp⟩

/-- A failing chatbot run ends with the failing invocation followed directly
by the top-level catch's log. -/
theorem chatProgram_err (oracle : Oracle) (inputs : List String) (e : String)
    (h : (Chatbot.main oracle inputs).err = some e) :
    ∃ pre sent, Chatbot.program oracle inputs =
      pre ++ [Event.invoke sent, Event.logError e] := by
  have hshape : ∃ pre sent,
      (Chatbot.main oracle inputs).events = pre ++ [Event.invoke sent] := by
    unfold Chatbot.main at h ⊢
    rcases chatLoop_shape oracle inputs [] emptyOnboardingData with
      hnone | ⟨pre, sent, e', herr2, hev⟩
    · rw [h] at hnone; cases hnone
    · exact ⟨pre, sent, hev⟩
  obtain ⟨pre, sent, hev⟩ := hshape
  unfold Chatbot.program
  dsimp only
  rw [h, hev]
  exact ⟨pre, sent, by simp⟩

/-- Claim C6: a completion-service failure is not caught or retried inside
either conversation loop: the run's trace ends with the failing invocation
followed immediately by the single top-level catch logging the error — no
event, in particular no further model invocation, happens in between or
afterwards. -/
theorem c6_failure_fail_fast (oracle : Oracle) (inputs : List String) (e : String) :
    ((Instructor.main oracle inputs).err = some e →
      ∃ pre sent, Instructor.program oracle inputs =
        pre ++ [Event.invoke sent, Event.logError e]) ∧
    ((Chatbot.main oracle inputs).err = some e →
      ∃ pre sent, Chatbot.program oracle inputs =
        pre ++ [Event.invoke sent, Event.logError e]) :=
  ⟨instrProgram_err oracle inputs e, chatProgram_err oracle inputs e⟩

/-- A concrete oracle whose service call always fails. -/
def oracleFail : Oracle := fun _ => Except.error "ECONNRESET"

/-- Witness for C6 at the failing oracle. -/
theorem c6_witness :
    (∃ pre sent, Instructor.program oracleFail ["hi"] =
        pre ++ [Event.invoke sent, Event.logError "ECONNRESET"]) ∧
    (∃ pre sent, Chatbot.program oracleFail ["hi"] =
        pre ++ [Event.invoke sent, Event.logError "ECONNRESET"]) :=
  ⟨(c6_failure_fail_fast oracleFail ["hi"] "ECONNRESET").1 rfl,
   (c6_failure_fail_fast oracleFail ["hi"] "ECONNRESET").2 rfl⟩

/-! ## System-message and full-history invariants (claim C5) -/

/-- Every model invocation of a chatbot loop run sends one system message (the
templated instruction for some progress value) prepended to a transcript that
contains no system message and extends the loop's starting transcript; and
successive invocations send monotonically growing histories (each sent
history, minus its system head, is a prefix of the next one). -/
theorem chatLoop_invokes (oracle : Oracle) (inputs : List String) :
    ∀ (msgs : List Message) (data : OnboardingData), sysCount msgs = 0 →
    (∀ m ∈ invokeLists (Chatbot.loop oracle inputs msgs data).events,
        ∃ d t, m = Message.system (Chatbot.systemContent d) :: t ∧
          sysCount t = 0 ∧ msgs <+: t) ∧
    List.Chain' (fun a b => a.tail <+: b.tail)
      (invokeLists (Chatbot.loop oracle inputs msgs data).events) := by
  induction inputs with
  | nil =>
      intro msgs data h0
      constructor
      · intro m hm
        simp [Chatbot.loop, invokeLists] at hm
      · simp [Chatbot.loop, invokeLists]
  | cons line rest ih =>
      intro msgs data h0
      have hsent : chatSent msgs data (Message.human line) =
          Message.system (Chatbot.systemContent (mergeData data emptyOnboardingData)) ::
            messagesReducer msgs [Message.human line] := rfl
      have htail0 : sysCount (messagesReducer msgs [Message.human line]) = 0 := by
        show sysCount (msgs ++ [Message.human line]) = 0
        rw [sysCount_append, h0]
        rfl
      have hpref0 : msgs <+: messagesReducer msgs [Message.human line] :=
        ⟨[Message.human line], rfl⟩
      by_cases hex : jsToLower line = "exit"
      · unfold Chatbot.loop
        rw [if_pos hex]
        constructor
        · intro m hm
          simp [invokeLists] at hm
        · simp [invokeLists]
      · unfold Chatbot.loop
        rw [if_neg hex]
        dsimp only
        cases herr : (Chatbot.step oracle msgs data (Message.human line)).err with
        | some e =>
            have hinv : invokeLists (Event.read line ::
                (Chatbot.step oracle msgs data (Message.human line)).events) =
                [chatSent msgs data (Message.human line)] := by
              rw [invokeLists_read, chatStep_events]
              rfl
            constructor
            · intro m hm
              dsimp only at hm
              rw [hinv] at hm
              rcases List.mem_singleton.mp hm with rfl
              exact ⟨mergeData data emptyOnboardingData,
                messagesReducer msgs [Message.human line], hsent, htail0, hpref0⟩
            · dsimp only
              rw [hinv]
              exact List.chain'_singleton _
        | none =>
            have hstep0 : sysCount (Chatbot.step oracle msgs data
                (Message.human line)).messages = 0 :=
              chatStep_sysCount oracle msgs data (Message.human line) rfl h0
            obtain ⟨iha, ihb⟩ := ih (Chatbot.step oracle msgs data
                (Message.human line)).messages
              (Chatbot.step oracle msgs data (Message.human line)).data hstep0
            have hinv : invokeLists (Event.read line ::
                (Chatbot.step oracle msgs data (Message.human line)).events ++
                Event.printBot (Chatbot.step oracle msgs data
                  (Message.human line)).messages.getLast? ::
                (Chatbot.loop oracle rest
                  (Chatbot.step oracle msgs data (Message.human line)).messages
                  (Chatbot.step oracle msgs data (Message.human line)).data).events) =
                chatSent msgs data (Message.human line) ::
                  invokeLists (Chatbot.loop oracle rest
                    (Chatbot.step oracle msgs data (Message.human line)).messages
                    (Chatbot.step oracle msgs data (Message.human line)).data).events := by
              rw [invokeLists_append, invokeLists_read, chatStep_events,
                invokeLists_printBot]
              rfl
            constructor
            · intro m hm
              dsimp only at hm
              rw [hinv] at hm
              rcases List.mem_cons.mp hm with rfl | hm2
              · exact ⟨mergeData data emptyOnboardingData,
                  messagesReducer msgs [Message.human line], hsent, htail0, hpref0⟩
              · obtain ⟨d, t, hmt, hsys, hpref⟩ := iha m hm2
                exact ⟨d, t, hmt, hsys,
                  hpref0.trans ((chatStep_history_le oracle msgs data
                    (Message.human line)).trans hpref)⟩
            · dsimp only
              rw [hinv, List.chain'_cons']
              constructor
              · intro b hb
                obtain ⟨d, t, hbt, hsys, hpref⟩ := iha b (List.mem_of_mem_head? hb)
                rw [hbt]
                show messagesReducer msgs [Message.human line] <+: t
                exact (chatStep_history_le oracle msgs data (Message.human line)).trans hpref
              · exact ihb

/-- Every model invocation of an instructor loop run sends the fixed system
message prepended to a transcript that contains no system message and extends
the loop's starting transcript; successive invocations send monotonically
growing histories. -/
theorem instrLoop_invokes (oracle : Oracle) (inputs : List String) :
    ∀ (msgs : List Message) (completed : Bool), sysCount msgs = 0 →
    (∀ m ∈ invokeLists (Instructor.loop oracle inputs msgs completed).events,
        ∃ t, m = Message.system Instructor.systemContent :: t ∧
          sysCount t = 0 ∧ msgs <+: t) ∧
    List.Chain' (fun a b => a.tail <+: b.tail)
      (invokeLists (Instructor.loop oracle inputs msgs completed).events) := by
  induction inputs with
  | nil =>
      intro msgs completed h0
      constructor
      · intro m hm
        simp [Instructor.loop, invokeLists] at hm
      · simp [Instructor.loop, invokeLists]
  | cons line rest ih =>
      intro msgs completed h0
      have hsent : instrSent msgs (Message.human line) =
          Message.system Instructor.systemContent ::
            messagesReducer msgs [Message.human line] := rfl
      have htail0 : sysCount (messagesReducer msgs [Message.human line]) = 0 := by
        show sysCount (msgs ++ [Message.human line]) = 0
        rw [sysCount_append, h0]
        rfl
      have hpref0 : msgs <+: messagesReducer msgs [Message.human line] :=
        ⟨[Message.human line], rfl⟩
      by_cases hex : jsToLower line = "exit"
      · unfold Instructor.loop
        rw [if_pos hex]
        constructor
        · intro m hm
          simp [invokeLists] at hm
        · simp [invokeLists]
      · unfold Instructor.loop
        rw [if_neg hex]
        dsimp only
        cases herr : (Instructor.step oracle msgs completed (Message.human line)).err with
        | some e =>
            have hinv : invokeLists (Event.read line ::
                (Instructor.step oracle msgs completed (Message.human line)).events) =
                [instrSent msgs (Message.human line)] := by
              rw [invokeLists_read, instrStep_invokeLists]
            constructor
            · intro m hm
              dsimp only at hm
              rw [hinv] at hm
              rcases List.mem_singleton.mp hm with rfl
              exact ⟨messagesReducer msgs [Message.human line], hsent, htail0, hpref0⟩
            · dsimp only
              rw [hinv]
              exact List.chain'_singleton _
        | none =>
            by_cases hc : (Instructor.step oracle msgs completed
                (Message.human line)).completed = true
            · rw [if_pos hc]
              have hinv : invokeLists ((Event.read line ::
                  (Instructor.step oracle msgs completed (Message.human line)).events) ++
                  [Event.printBot (Instructor.step oracle msgs completed
                    (Message.human line)).messages.getLast?]) =
                  [instrSent msgs (Message.human line)] := by
                rw [invokeLists_append, invokeLists_read, instrStep_invokeLists]
                rfl
              constructor
              · intro m hm
                dsimp only at hm
                rw [hinv] at hm
                rcases List.mem_singleton.mp hm with rfl
                exact ⟨messagesReducer msgs [Message.human line], hsent, htail0, hpref0⟩
              · dsimp only
                rw [hinv]
                exact List.chain'_singleton _
            · rw [if_neg hc]
              have hstep0 : sysCount (Instructor.step oracle msgs completed
                  (Message.human line)).messages = 0 :=
                instrStep_sysCount oracle msgs completed (Message.human line) rfl h0
              obtain ⟨iha, ihb⟩ := ih (Instructor.step oracle msgs completed
                  (Message.human line)).messages
                (Instructor.step oracle msgs completed (Message.human line)).completed hstep0
              have hinv : invokeLists ((Event.read line ::
                  (Instructor.step oracle msgs completed (Message.human line)).events) ++
                  Event.printBot (Instructor.step oracle msgs completed
                    (Message.human line)).messages.getLast? ::
                  (Instructor.loop oracle rest
                    (Instructor.step oracle msgs completed (Message.human line)).messages
                    (Instructor.step oracle msgs completed
                      (Message.human line)).completed).events) =
                  instrSent msgs (Message.human line) ::
                    invokeLists (Instructor.loop oracle rest
                      (Instructor.step oracle msgs completed (Message.human line)).messages
                      (Instructor.step oracle msgs completed
                        (Message.human line)).completed).events := by
                rw [invokeLists_append, invokeLists_read, instrStep_invokeLists,
                  invokeLists_printBot]
                rfl
              constructor
              · intro m hm
                dsimp only at hm
                rw [hinv] at hm
                rcases List.mem_cons.mp hm with rfl | hm2
                · exact ⟨messagesReducer msgs [Message.human line], hsent, htail0, hpref0⟩
                · obtain ⟨t, hmt, hsys, hpref⟩ := iha m hm2
                  exact ⟨t, hmt, hsys,
                    hpref0.trans ((instrStep_history_le oracle msgs completed
                      (Message.human line)).trans hpref)⟩
              · dsimp only
                rw [hinv, List.chain'_cons']
                constructor
                · intro b hb
                  obtain ⟨t, hbt, hsys, hpref⟩ := iha b (List.mem_of_mem_head? hb)
                  rw [hbt]
                  show messagesReducer msgs [Message.human line] <+: t
                  exact (instrStep_history_le oracle msgs completed
                    (Message.human line)).trans hpref
                · exact ihb

theorem instrProgram_invokeLists (oracle : Oracle) (inputs : List String) :
    invokeLists (Instructor.program oracle inputs) =
      invokeLists (Instructor.main oracle inputs).events := by
  unfold Instructor.program
  dsimp only
  cases h : (Instructor.main oracle inputs).err with
  | some e =>
      rw [invokeLists_append]
      simp [invokeLists]
  | none => rfl

theorem chatProgram_invokeLists (oracle : Oracle) (inputs : List String) :
    invokeLists (Chatbot.program oracle inputs) =
      invokeLists (Chatbot.main oracle inputs).events := by
  unfold Chatbot.program
  dsimp only
  cases h : (Chatbot.main oracle inputs).err with
  | some e =>
      rw [invokeLists_append]
      simp [invokeLists]
  | none => rfl

/-- Every model invocation of an instructor run (seed included) sends the
fixed system message exactly once, prepended to a system-free transcript, and
the sent histories grow monotonically. -/
theorem instrMain_invokes (oracle : Oracle) (inputs : List String) :
    (∀ m ∈ invokeLists (Instructor.main oracle inputs).events,
        ∃ t, m = Message.system Instructor.systemContent :: t ∧ sysCount t = 0) ∧
    List.Chain' (fun a b => a.tail <+: b.tail)
      (invokeLists (Instructor.main oracle inputs).events) := by
  have hsent : instrSent [] (Message.human "Start onboarding") =
      Message.system Instructor.systemContent ::
        messagesReducer [] [Message.human "Start onboarding"] := rfl
  have htail0 : sysCount (messagesReducer [] [Message.human "Start onboarding"]) = 0 := rfl
  unfold Instructor.main
  dsimp only
  cases h0 : (Instructor.step oracle [] false (Message.human "Start onboarding")).err with
  | some e0 =>
      have hinv : invokeLists (Instructor.step oracle [] false
          (Message.human "Start onboarding")).events =
          [instrSent [] (Message.human "Start onboarding")] :=
        instrStep_invokeLists oracle [] false (Message.human "Start onboarding")
      constructor
      · intro m hm
        dsimp only at hm
        rw [hinv] at hm
        rcases List.mem_singleton.mp hm with rfl
        exact ⟨messagesReducer [] [Message.human "Start onboarding"], hsent, htail0⟩
      · dsimp only
        rw [hinv]
        exact List.chain'_singleton _
  | none =>
      have hstep0 : sysCount (Instructor.step oracle [] false
          (Message.human "Start onboarding")).messages = 0 :=
        instrStep_sysCount oracle [] false (Message.human "Start onboarding") rfl rfl
      obtain ⟨la, lb⟩ := instrLoop_invokes oracle inputs
        (Instructor.step oracle [] false (Message.human "Start onboarding")).messages
        (Instructor.step oracle [] false (Message.human "Start onboarding")).completed hstep0
      have hinv : invokeLists ((Instructor.step oracle [] false
          (Message.human "Start onboarding")).events ++
          Event.printBot (Instructor.step oracle [] false
            (Message.human "Start onboarding")).messages.getLast? ::
          (Instructor.loop oracle inputs
            (Instructor.step oracle [] false (Message.human "Start onboarding")).messages
            (Instructor.step oracle [] false
              (Message.human "Start onboarding")).completed).events) =
          instrSent [] (Message.human "Start onboarding") ::
            invokeLists (Instructor.loop oracle inputs
              (Instructor.step oracle [] false (Message.human "Start onboarding")).messages
              (Instructor.step oracle [] false
                (Message.human "Start onboarding")).completed).events := by
        rw [invokeLists_append, instrStep_invokeLists, invokeLists_printBot]
        rfl
      constructor
      · intro m hm
        dsimp only at hm
        rw [hinv] at hm
        rcases List.mem_cons.mp hm with rfl | hm2
        · exact ⟨messagesReducer [] [Message.human "Start onboarding"], hsent, htail0⟩
        · obtain ⟨t, hmt, hsys, hpref⟩ := la m hm2
          exact ⟨t, hmt, hsys⟩
      · dsimp only
        rw [hinv, List.chain'_cons']
        constructor
        · intro b hb
          obtain ⟨t, hbt, hsys, hpref⟩ := la b (List.mem_of_mem_head? hb)
          rw [hbt]
          show messagesReducer [] [Message.human "Start onboarding"] <+: t
          exact (instrStep_history_le oracle [] false
            (Message.human "Start onboarding")).trans hpref
        · exact lb

/-- Claim C5 (amended): in every run of either entry point, each invocation's
message list is a single system message — the fixed instruction in the
tool-calling entry point, the static template instantiated with the current
collected progress in the string-matching one — prepended to the accumulated
transcript, which contains no system message of its own; successive
invocations send monotonically growing histories (each sent transcript is a
prefix of the next — never a truncated suffix). -/
theorem c5_system_message_and_full_history (oracle : Oracle) (inputs : List String) :
    (∀ m ∈ invokeLists (Instructor.program oracle inputs),
        ∃ t, m = Message.system Instructor.systemContent :: t ∧ sysCount t = 0) ∧
    List.Chain' (fun a b => a.tail <+: b.tail)
      (invokeLists (Instructor.program oracle inputs)) ∧
    (∀ m ∈ invokeLists (Chatbot.program oracle inputs),
        ∃ d t, m = Message.system (Chatbot.systemContent d) :: t ∧ sysCount t = 0) ∧
    List.Chain' (fun a b => a.tail <+: b.tail)
      (invokeLists (Chatbot.program oracle inputs)) := by
  rw [instrProgram_invokeLists, chatProgram_invokeLists]
  obtain ⟨ia, ib⟩ := instrMain_invokes oracle inputs
  obtain ⟨ca, cb⟩ := chatLoop_invokes oracle inputs [] emptyOnboardingData rfl
  refine ⟨ia, ib, ?_, cb⟩
  intro m hm
  obtain ⟨d, t, h1, h2, h3⟩ := ca m hm
  exact ⟨d, t, h1, h2⟩

/-- A concrete oracle whose reply pattern makes `parseResponseForData` pick up
a business name. -/
def oracleBN : Oracle := fun _ => Except.ok ⟨"business name: Acme", []⟩

/-- The transcript after the first turn against `oracleBN`. -/
def bnMsgs1 : List Message :=
  [Message.human "hi", Message.ai "business name: Acme" []]

/-- The collected data after the first turn against `oracleBN`. -/
def bnData1 : OnboardingData :=
  { emptyOnboardingData with businessName := some "Acme" }

set_option maxRecDepth 8000 in
/-- Counterexample to C5 as stated: in the string-matching entry point the
system instruction is not fixed — in this concrete two-turn run the two
invocations carry different system messages (the template embeds the current
progress), so no single fixed instruction heads every invocation. -/
theorem c5_counterexample :
    ¬ ∃ c : Message, ∀ m ∈ invokeLists (Chatbot.program oracleBN ["hi", "again"]),
        m.head? = some c := by
  rintro ⟨c, hc⟩
  have hlists : invokeLists (Chatbot.program oracleBN ["hi", "again"]) =
      [chatSent [] emptyOnboardingData (Message.human "hi"),
       chatSent bnMsgs1 bnData1 (Message.human "again")] := rfl
  have h1 := hc (chatSent [] emptyOnboardingData (Message.human "hi"))
    (by rw [hlists]; exact List.mem_cons_self _ _)
  have h2 := hc (chatSent bnMsgs1 bnData1 (Message.human "again"))
    (by rw [hlists]; exact List.mem_cons_of_mem _ (List.mem_cons_self _ _))
  rw [show (chatSent [] emptyOnboardingData (Message.human "hi")).head? =
      some (Message.system (Chatbot.systemContent
        (mergeData emptyOnboardingData emptyOnboardingData))) from rfl] at h1
  rw [show (chatSent bnMsgs1 bnData1 (Message.human "again")).head? =
      some (Message.system (Chatbot.systemContent
        (mergeData bnData1 emptyOnboardingData))) from rfl] at h2
  rw [← h2] at h1
  have hAB := Option.some.inj h1
  have hcontent : Chatbot.systemContent (mergeData emptyOnboardingData emptyOnboardingData) =
      Chatbot.systemContent (mergeData bnData1 emptyOnboardingData) := by
    injection hAB
  exact absurd hcontent (by decide)

/-- Witness for the amended C5 at a concrete run and invocation. -/
theorem c5_witness :
    ∃ d t, chatSent [] emptyOnboardingData (Message.human "hi") =
      Message.system (Chatbot.systemContent d) :: t ∧ sysCount t = 0 :=
  (c5_system_message_and_full_history oracleBN ["hi", "again"]).2.2.1
    (chatSent [] emptyOnboardingData (Message.human "hi"))
    (by rw [show invokeLists (Chatbot.program oracleBN ["hi", "again"]) =
          [chatSent [] emptyOnboardingData (Message.human "hi"),
           chatSent bnMsgs1 bnData1 (Message.human "again")] from rfl]
        exact List.mem_cons_self _ _)
